import Mathlib

/-!
# simple-lisp: the tagged `Value` and its coercion engine

A shallow embedding of `include/simplelisp.h` (class `Value`, the stream
operator, the comparison and arithmetic operators) and of
`include/simplelisp-api.h` (the `file` capability object), followed by the
theorems that settle the properties claimed of them.

Conventions of the embedding

* `int` is a 32-bit two's complement integer: payloads are `Int`, every
  arithmetic result is reduced by `wrap_int`.  Integer division by zero and
  `INT_MIN / -1` have no result in C++ (the machine traps); `operator_slash`
  returns `none` there.
* `float` is IEEE 754 binary32 with round-to-nearest-even, modelled by `F32`.
* `std::string` is modelled by `String`, `std::vector<Value>` by `List Value`.
* `std::function` and `std::shared_ptr<SimpleListObject>` are opaque handles;
  no operator of the header ever looks inside them.
* `std::ostream` is the text written so far; `FILE` is a content and a cursor.
-/

namespace SimpleLisp

/-! ## 32-bit signed integers -/

/-- Smallest value of `int`. -/
def INT_MIN : Int := -2147483648

/-- Largest value of `int`. -/
def INT_MAX : Int := 2147483647

/-- Membership in the range of `int`. -/
def is_int32 (i : Int) : Prop := INT_MIN ≤ i ∧ i ≤ INT_MAX

instance (i : Int) : Decidable (is_int32 i) := by
  unfold is_int32; exact inferInstance

/-- Two's complement reduction of an exact integer result to 32 bits. -/
def wrap_int (i : Int) : Int := (i + 2147483648) % 4294967296 - 2147483648

/-! ## IEEE 754 binary32 -/

/-- A binary32 datum.  `fin neg m e` denotes `(-1)^neg * m * 2^e`; the encodable
finite values have `m < 2^24`, `-149 ≤ e ≤ 104` and `2^23 ≤ m` unless
`e = -149` (zeros and subnormals).  Both zeros exist (`fin false 0 (-149)` and
`fin true 0 (-149)`).  The sign and payload of a NaN are not tracked. -/
inductive F32 where
  | nan
  | inf (neg : Bool)
  | fin (neg : Bool) (m : Nat) (e : Int)
  deriving DecidableEq, Repr

/-- Number of binary digits of `n` (0 for 0), by halving; `fuel ≥ n` suffices. -/
def bit_len_aux : Nat → Nat → Nat
  | 0, _ => 0
  | fuel + 1, n => if n = 0 then 0 else bit_len_aux fuel (n / 2) + 1

/-- Number of binary digits of `n`. -/
def bit_len (n : Nat) : Nat := bit_len_aux n n

/-- Round-half-to-even of the quotient `n / d`. -/
def round_half_even (n d : Nat) : Nat :=
  let q := n / d
  let r := n % d
  if 2 * r > d ∨ (2 * r = d ∧ q % 2 = 1) then q + 1 else q

namespace F32

/-- Positive zero. -/
def zero : F32 := fin false 0 (-149)

/-- Floor of the binary logarithm of the positive rational `n / d`. -/
def ilog2 (n d : Nat) : Int :=
  let k : Int := (bit_len n : Int) - (bit_len d : Int)
  if d * 2 ^ k.toNat ≤ n * 2 ^ (-k).toNat then k else k - 1

/-- Rounding of the exact rational magnitude `n / d` (with `0 < d`) to the
nearest binary32 value, ties to even, overflowing to infinity. -/
def round (neg : Bool) (n d : Nat) : F32 :=
  if n = 0 then fin neg 0 (-149)
  else
    let q : Int := max (ilog2 n d - 23) (-149)
    let m := round_half_even (n * 2 ^ (-q).toNat) (d * 2 ^ q.toNat)
    let q1 : Int := if m = 16777216 then q + 1 else q
    let m1 : Nat := if m = 16777216 then 8388608 else m
    if q1 > 104 then inf neg else fin neg m1 q1

/-- Signed significand of a finite value aligned to the exponent `e0 ≤ e`. -/
def aligned (neg : Bool) (m : Nat) (e e0 : Int) : Int :=
  let v : Int := (m * 2 ^ (e - e0).toNat : Nat)
  if neg then -v else v

/-- Conversion `int → float`. -/
def of_int (i : Int) : F32 :=
  if i = 0 then zero else round (decide (i < 0)) i.natAbs 1

/-- Negation (flips the sign bit). -/
def neg : F32 → F32
  | nan => nan
  | inf s => inf (!s)
  | fin s m e => fin (!s) m e

/-- Addition of binary32. -/
def add : F32 → F32 → F32
  | nan, _ => nan
  | _, nan => nan
  | inf s, inf t => if s = t then inf s else nan
  | inf s, fin _ _ _ => inf s
  | fin _ _ _, inf t => inf t
  | fin s m e, fin t n f =>
    let e0 := min e f
    let v := aligned s m e e0 + aligned t n f e0
    if v = 0 then fin (s && t) 0 (-149)
    else round (decide (v < 0)) (v.natAbs * 2 ^ e0.toNat) (2 ^ (-e0).toNat)

/-- Subtraction of binary32. -/
def sub (x y : F32) : F32 := add x (neg y)

/-- Multiplication of binary32. -/
def mul : F32 → F32 → F32
  | nan, _ => nan
  | _, nan => nan
  | inf s, inf t => inf (xor s t)
  | inf s, fin t n _ => if n = 0 then nan else inf (xor s t)
  | fin s m _, inf t => if m = 0 then nan else inf (xor s t)
  | fin s m e, fin t n f =>
    round (xor s t) (m * n * 2 ^ (e + f).toNat) (2 ^ (-(e + f)).toNat)

/-- Division of binary32 (division by zero gives an infinity or a NaN). -/
def div : F32 → F32 → F32
  | nan, _ => nan
  | _, nan => nan
  | inf _, inf _ => nan
  | inf s, fin t _ _ => inf (xor s t)
  | fin s _ _, inf t => fin (xor s t) 0 (-149)
  | fin s m e, fin t n f =>
    if n = 0 then (if m = 0 then nan else inf (xor s t))
    else round (xor s t) (m * 2 ^ (e - f).toNat) (n * 2 ^ (f - e).toNat)

/-- Comparison `<` of binary32 (false whenever a NaN is involved). -/
def lt : F32 → F32 → Bool
  | nan, _ => false
  | _, nan => false
  | inf s, inf t => s && !t
  | inf s, fin _ _ _ => s
  | fin _ _ _, inf t => !t
  | fin s m e, fin t n f =>
    decide (aligned s m e (min e f) < aligned t n f (min e f))

/-- Comparison `==` of binary32 (false for NaN, true for `+0 == -0`). -/
def eq : F32 → F32 → Bool
  | nan, _ => false
  | _, nan => false
  | inf s, inf t => s == t
  | inf _, fin _ _ _ => false
  | fin _ _ _, inf _ => false
  | fin s m e, fin t n f =>
    decide (aligned s m e (min e f) = aligned t n f (min e f))

/-- Conversion `float → bool`: true unless the value is a zero. -/
def to_bool : F32 → Bool
  | nan => true
  | inf _ => true
  | fin _ m _ => m != 0

end F32

/-! ## Decimal formatting (`std::to_string`, `std::ostream` insertion) -/

/-- The character of the decimal digit `d`. -/
def digit_char (d : Nat) : Char := Char.ofNat (48 + d)

/-- Decimal digits of `n`, most significant first, pushed in front of `acc`;
`fuel > n` always suffices. -/
def dec_digits_aux : Nat → Nat → List Char → List Char
  | 0, _, acc => acc
  | fuel + 1, n, acc =>
    if n < 10 then digit_char n :: acc
    else dec_digits_aux fuel (n / 10) (digit_char (n % 10) :: acc)

/-- Decimal digits of a natural number (`"0"` for zero). -/
def dec_digits (n : Nat) : List Char := dec_digits_aux (n + 1) n []

/-- The result of `std::to_string(int)` (format `%d`); `os << int` writes the same
characters. -/
def to_string_int (i : Int) : String :=
  if i < 0 then String.mk ('-' :: dec_digits i.natAbs) else String.mk (dec_digits i.natAbs)

/-- Decimal digits of `n` left-padded with zeros to `width` characters. -/
def pad_digits (width n : Nat) : List Char :=
  List.replicate (width - (dec_digits n).length) '0' ++ dec_digits n

/-- Removal of trailing zeros from a fraction. -/
def strip_zeros (l : List Char) : List Char :=
  (l.reverse.dropWhile (fun c => c == '0')).reverse

/-- A fraction with its decimal point, nothing when the fraction is empty. -/
def with_point (l : List Char) : List Char :=
  if l.isEmpty then [] else '.' :: l

/-- Style `%f` with `prec` fractional digits, for the magnitude `n / d`. -/
def fixed_digits (n d prec : Nat) : List Char :=
  let v := round_half_even (n * 10 ^ prec) d
  dec_digits (v / 10 ^ prec) ++ with_point (if prec = 0 then [] else pad_digits prec (v % 10 ^ prec))

/-- Search for the least `k ≥ 1` with `d ≤ n * 10^k`, for `0 < n < d`. -/
def neg_exp10_aux : Nat → Nat → Nat → Nat → Nat
  | 0, _, _, k => k
  | fuel + 1, n, d, k => if d ≤ n * 10 ^ k then k else neg_exp10_aux fuel n d (k + 1)

/-- Floor of the decimal logarithm of the positive rational `n / d`. -/
def ilog10 (n d : Nat) : Int :=
  if d ≤ n then (((dec_digits (n / d)).length - 1 : Nat) : Int)
  else -((neg_exp10_aux (dec_digits d).length n d 1 : Nat) : Int)

/-- Style `%g` with precision 6 (the default of `std::ostream`), for the
magnitude `n / d`. -/
def general_digits (n d : Nat) : List Char :=
  if n = 0 then ['0']
  else
    let x0 := ilog10 n d
    let v0 := round_half_even (n * 10 ^ (5 - x0).toNat) (d * 10 ^ (x0 - 5).toNat)
    let x : Int := if v0 = 1000000 then x0 + 1 else x0
    let v : Nat := if v0 = 1000000 then 100000 else v0
    if -4 ≤ x ∧ x < 6 then
      let p := (5 - x).toNat
      dec_digits (v / 10 ^ p) ++ with_point (strip_zeros (if p = 0 then [] else pad_digits p (v % 10 ^ p)))
    else
      dec_digits (v / 100000) ++ with_point (strip_zeros (pad_digits 5 (v % 100000)))
        ++ 'e' :: (if x < 0 then '-' else '+') :: pad_digits 2 x.natAbs

/-- Sign prefix of a formatted number. -/
def sign_chars (neg : Bool) : List Char := if neg then ['-'] else []

/-- The result of `std::to_string(float)` (format `%f`). -/
def to_string_float : F32 → String
  | .nan => "nan"
  | .inf s => String.mk (sign_chars s ++ ['i', 'n', 'f'])
  | .fin s m e => String.mk (sign_chars s ++ fixed_digits (m * 2 ^ e.toNat) (2 ^ (-e).toNat) 6)

/-- The characters written by `os << float` with the default stream flags (a NaN
is written without a sign). -/
def put_float : F32 → String
  | .nan => "nan"
  | .inf s => String.mk (sign_chars s ++ ['i', 'n', 'f'])
  | .fin s m e => String.mk (sign_chars s ++ general_digits (m * 2 ^ e.toNat) (2 ^ (-e).toNat))

/-! ## `std::string` comparison -/

/-- The function `char_traits::compare` over the common prefix of two strings. -/
def traits_compare : List Char → List Char → Int
  | a :: l, b :: r => if a < b then -1 else if b < a then 1 else traits_compare l r
  | _, _ => 0

/-- The function `std::string::compare`: the first differing character decides, then
the lengths. -/
def string_compare (l r : String) : Int :=
  let c := traits_compare l.data r.data
  if c ≠ 0 then c else (l.data.length : Int) - (r.data.length : Int)

/-- The comparison `operator<` of `std::string`. -/
def string_lt (l r : String) : Bool := decide (string_compare l r < 0)

/-- The comparison `operator==` of `std::string`. -/
def string_eq (l r : String) : Bool := decide (l = r)

/-! ## The tagged value -/

/-- A `Value::Function`, an opaque callable identified by a handle. -/
structure Function where
  handle : Nat
  deriving DecidableEq, Repr

/-- A `std::shared_ptr<SimpleListObject>`, identified by the address it holds. -/
structure ObjectPtr where
  addr : Nat
  deriving DecidableEq, Repr

mutual
/-- The variant `Value::inner`, one constructor per alternative, in the order of
the `std::variant`. -/
inductive Inner where
  | monostate
  | int (i : Int)
  | float (f : F32)
  | str (s : String)
  | vec (v : List Value)
  | func (f : Function)
  | instance (p : ObjectPtr)
/-- The C++ class `Value`: the debug label `name` and the variant `inner`. -/
inductive Value where
  | mk (name : String) (inner : Inner)
end

/-- Field `name` of a `Value`. -/
def Value.name : Value → String
  | .mk n _ => n

/-- Field `inner` of a `Value`. -/
def Value.inner : Value → Inner
  | .mk _ i => i

/-- Constructor `Value()`. -/
def Value.null : Value := .mk "" .monostate

/-- Constructor `Value(int)`. -/
def Value.of_int (i : Int) : Value := .mk "" (.int i)

/-- Constructor `Value(float)`. -/
def Value.of_float (f : F32) : Value := .mk "" (.float f)

/-- Constructor `Value(std::string)`. -/
def Value.of_string (s : String) : Value := .mk "" (.str s)

/-- Constructor `Value(std::vector<Value>)`. -/
def Value.of_vec (v : List Value) : Value := .mk "" (.vec v)

/-- Constructor `Value(std::string name, Function&&)`. -/
def Value.of_named_func (name : String) (f : Function) : Value := .mk name (.func f)

/-- Constructor `Value(Function&&)`. -/
def Value.of_func (f : Function) : Value := .mk "" (.func f)

/-- Constructor `Value(SimpleListObject*)`. -/
def Value.of_object (p : ObjectPtr) : Value := .mk "" (.instance p)

/-- Macro `IS_NULL`. -/
def IS_NULL : Inner → Bool
  | .monostate => true
  | _ => false

/-- Macro `IS_INT`. -/
def IS_INT : Inner → Bool
  | .int _ => true
  | _ => false

/-- Macro `IS_FLOAT`. -/
def IS_FLOAT : Inner → Bool
  | .float _ => true
  | _ => false

/-- Macro `IS_STR`. -/
def IS_STR : Inner → Bool
  | .str _ => true
  | _ => false

/-- Macro `IS_VEC`. -/
def IS_VEC : Inner → Bool
  | .vec _ => true
  | _ => false

/-- Macro `IS_FUNC`. -/
def IS_FUNC : Inner → Bool
  | .func _ => true
  | _ => false

/-- Macro `IS_INSTANCE`. -/
def IS_INSTANCE : Inner → Bool
  | .instance _ => true
  | _ => false

/-- Method `Value::is_instance`. -/
def Value.is_instance (v : Value) : Bool := IS_INSTANCE v.inner

mutual
/-- Method `Value::get_type`. -/
def Value.get_type : Value → String
  | .mk _ inner => Inner.get_type inner
/-- The body of `Value::get_type`, by the active alternative. -/
def Inner.get_type : Inner → String
  | .monostate => "NULL"
  | .int _ => "int"
  | .float _ => "float"
  | .str _ => "string"
  | .vec v => get_type_loop "[ " v ++ "]"
  | .func _ => "function"
  | .instance _ => "instance"
/-- The loop of `Value::get_type` over the items of a vector; `str` is the
text accumulated so far. -/
def get_type_loop (str : String) : List Value → String
  | [] => str
  | item :: rest => get_type_loop (str ++ (Value.get_type item ++ " ")) rest
end

mutual
/-- The stream insertion `operator<<(std::ostream&, const Value&)`; `os` is the text
already written, the result is the text written afterwards. -/
def operator_shl (os : String) : Value → String
  | .mk _ inner => put_inner os inner
/-- The body of `operator<<`, by the active alternative. -/
def put_inner (os : String) : Inner → String
  | .monostate => os ++ "NULL"
  | .int i => os ++ to_string_int i
  | .float f => os ++ put_float f
  | .str s => os ++ s
  | .vec v => put_loop (os ++ "[ ") v ++ "]"
  | .func _ => os ++ "<lambda#1>"
  | .instance _ => os
/-- The loop of `operator<<` over the items of a vector. -/
def put_loop (os : String) : List Value → String
  | [] => os
  | item :: rest => put_loop (operator_shl os item ++ " ") rest
end

/-- The text a value is rendered as: what `operator<<` writes to an empty stream. -/
def Value.render (v : Value) : String := operator_shl "" v

/-! ## Narrowing accessors

A diagnostic on `std::cerr` followed by `std::exit(1)` is the error result
carrying the diagnostic text. -/

/-- Method `Value::as_func`. -/
def Value.as_func (v : Value) : Except String Function :=
  match v.inner with
  | .func f => .ok f
  | _ => .error ("value is not a function but " ++ v.get_type ++ "\n")

/-- Method `Value::as_instance`. -/
def Value.as_instance (v : Value) : Except String ObjectPtr :=
  match v.inner with
  | .instance p => .ok p
  | _ => .error ("value is not an instance but " ++ v.get_type ++ "\n")

/-- Method `Value::as_string`. -/
def Value.as_string (v : Value) : Except String String :=
  match v.inner with
  | .str s => .ok s
  | _ =>
    .error ("value is not an string nor convertible to a string but " ++ v.get_type ++ "\n")

/-! ## Comparison operators -/

/-- The comparison `operator<` on `Value`. -/
def operator_lt (lhs rhs : Value) : Bool :=
  match lhs.inner with
  | .int li =>
    match rhs.inner with
    | .int ri => decide (li < ri)
    | .float rf => F32.lt (F32.of_int li) rf
    | _ => false
  | .float lf =>
    match rhs.inner with
    | .int ri => F32.lt lf (F32.of_int ri)
    | .float rf => F32.lt lf rf
    | _ => false
  | .str ls =>
    match rhs.inner with
    | .str rs => string_lt ls rs
    | _ => false
  | _ => false

/-- The comparison `operator>`. -/
def operator_gt (lhs rhs : Value) : Bool := operator_lt rhs lhs

/-- The comparison `operator<=`. -/
def operator_le (lhs rhs : Value) : Bool := !(operator_gt lhs rhs)

/-- The comparison `operator>=`. -/
def operator_ge (lhs rhs : Value) : Bool := !(operator_lt lhs rhs)

/-- The comparison `operator==` on `Value`.  In the branches with a `float` on the
left the source returns the sum of the operands, converted to `bool`. -/
def operator_eq (lhs rhs : Value) : Bool :=
  match lhs.inner with
  | .int li =>
    match rhs.inner with
    | .int ri => decide (li = ri)
    | .float rf => F32.eq (F32.of_int li) rf
    | _ => false
  | .float lf =>
    match rhs.inner with
    | .int ri => F32.to_bool (F32.add lf (F32.of_int ri))
    | .float rf => F32.to_bool (F32.add lf rf)
    | _ => false
  | .str ls =>
    match rhs.inner with
    | .str rs => string_eq ls rs
    | _ => false
  | _ => false

/-- The comparison `operator!=`. -/
def operator_ne (lhs rhs : Value) : Bool := !(operator_eq lhs rhs)

/-! ## Arithmetic operators -/

/-- The arithmetic `operator+` on `Value`. -/
def operator_plus (lhs rhs : Value) : Value :=
  match lhs.inner with
  | .int li =>
    match rhs.inner with
    | .int ri => Value.of_int (wrap_int (li + ri))
    | .float rf => Value.of_float (F32.add (F32.of_int li) rf)
    | .str rs => Value.of_string (to_string_int li ++ rs)
    | _ => Value.null
  | .float lf =>
    match rhs.inner with
    | .int ri => Value.of_float (F32.add lf (F32.of_int ri))
    | .float rf => Value.of_float (F32.add lf rf)
    | .str rs => Value.of_string (to_string_float lf ++ rs)
    | _ => Value.null
  | .str ls =>
    match rhs.inner with
    | .int ri => Value.of_string (ls ++ to_string_int ri)
    | .float rf => Value.of_string (ls ++ to_string_float rf)
    | .str rs => Value.of_string (ls ++ rs)
    | _ => Value.null
  | _ => Value.null

/-- The arithmetic `operator-` on `Value`. -/
def operator_minus (lhs rhs : Value) : Value :=
  match lhs.inner with
  | .int li =>
    match rhs.inner with
    | .int ri => Value.of_int (wrap_int (li - ri))
    | .float rf => Value.of_float (F32.sub (F32.of_int li) rf)
    | _ => Value.null
  | .float lf =>
    match rhs.inner with
    | .int ri => Value.of_float (F32.sub lf (F32.of_int ri))
    | .float rf => Value.of_float (F32.sub lf rf)
    | _ => Value.null
  | _ => Value.null

/-- The repetition loop of `operator*`:
`for (int i = 0; i < n; ++i) tmp += sss;` entered with the current `i` and `tmp`.
The counter never exceeds `n`, so `++i` does not overflow. -/
def repeat_loop (sss : String) (n i : Int) (tmp : String) : String :=
  if i < n then repeat_loop sss n (i + 1) (tmp ++ sss) else tmp
termination_by (n - i).toNat
decreasing_by omega

/-- The arithmetic `operator*` on `Value`. -/
def operator_star (lhs rhs : Value) : Value :=
  match lhs.inner with
  | .int li =>
    match rhs.inner with
    | .int ri => Value.of_int (wrap_int (li * ri))
    | .float rf => Value.of_float (F32.mul (F32.of_int li) rf)
    | _ => Value.null
  | .float lf =>
    match rhs.inner with
    | .int ri => Value.of_float (F32.mul lf (F32.of_int ri))
    | .float rf => Value.of_float (F32.mul lf rf)
    | _ => Value.null
  | .str sss =>
    match rhs.inner with
    | .int ri => Value.of_string (repeat_loop sss ri 0 "")
    | _ => Value.null
  | _ => Value.null

/-- The quotient `li / ri` of two `int`.  C++ gives it no value when `ri` is zero or
when the exact quotient does not fit (`INT_MIN / -1`): the result is `none`. -/
def int_div (li ri : Int) : Option Int :=
  if ri = 0 then none
  else if li = INT_MIN ∧ ri = -1 then none
  else some (Int.tdiv li ri)

/-- The arithmetic `operator/` on `Value`; `none` where the integer division has no
result. -/
def operator_slash (lhs rhs : Value) : Option Value :=
  match lhs.inner with
  | .int li =>
    match rhs.inner with
    | .int ri => (int_div li ri).map Value.of_int
    | .float rf => some (Value.of_float (F32.div (F32.of_int li) rf))
    | _ => some Value.null
  | .float lf =>
    match rhs.inner with
    | .int ri => some (Value.of_float (F32.div lf (F32.of_int ri)))
    | .float rf => some (Value.of_float (F32.div lf rf))
    | _ => some Value.null
  | _ => some Value.null

/-! ## Built-in output -/

/-- The built-in `func_print(Value)`: the new content of `std::cout` and the result. -/
def func_print (cout : String) (arg0 : Value) : String × Value :=
  (operator_shl cout arg0 ++ "\n", Value.null)

/-- The built-in `func_write(Value)`. -/
def func_write (cout : String) (arg0 : Value) : String × Value :=
  (operator_shl cout arg0, Value.null)

/-- The built-in `func_print(Value, Value)`. -/
def func_print2 (cout : String) (arg0 arg1 : Value) : String × Value :=
  (operator_shl (operator_shl cout arg0) arg1 ++ "\n", Value.null)

/-- The built-in `func_write(Value, Value)`. -/
def func_write2 (cout : String) (arg0 arg1 : Value) : String × Value :=
  (operator_shl (operator_shl cout arg0) arg1, Value.null)

/-! ## The `file` capability object

A `FILE` opened for reading is its content and the position of the next read.
The content does not change while the object lives. -/

/-- The state of an open `FILE`. -/
structure FILE where
  content : List Char
  pos : Nat
  deriving DecidableEq, Repr

/-- The origin argument of `fseek`. -/
inductive Whence where
  | SEEK_SET
  | SEEK_CUR
  | SEEK_END
  deriving DecidableEq, Repr

/-- The call `fseek(fp, offset, whence)`: the new state (unchanged when the target
position would be negative). -/
def fseek (fp : FILE) (offset : Int) (whence : Whence) : FILE :=
  let base : Int :=
    match whence with
    | .SEEK_SET => 0
    | .SEEK_CUR => fp.pos
    | .SEEK_END => fp.content.length
  if base + offset < 0 then fp else { fp with pos := (base + offset).toNat }

/-- The call `ftell(fp)`. -/
def ftell (fp : FILE) : Nat := fp.pos

/-- The call `fread(buf, 1, size, fp)`: the bytes stored at the start of the buffer
and the new state. -/
def fread (size : Nat) (fp : FILE) : List Char × FILE :=
  let got := (fp.content.drop fp.pos).take size
  (got, { fp with pos := fp.pos + got.length })

/-- The call `fopen(filename, "r")` over a file system that maps the names of
the readable files to their contents. -/
def fopen (fs : String → Option (List Char)) (filename : String) : Option FILE :=
  (fs filename).map (fun c => { content := c, pos := 0 })

/-- The C++ class `file`: its only member is the owned `FILE*`, null when `fopen`
failed. -/
structure file where
  file_ptr : Option FILE
  deriving DecidableEq, Repr

/-- The constructor `file::file(Value)`.  The character pointer taken from the
temporary string is read as the name it held. -/
def file.ctor (fs : String → Option (List Char)) (value : Value) : Except String file :=
  match value.as_string with
  | .ok filename => .ok { file_ptr := fopen fs filename }
  | .error msg => .error msg

/-- The method `file::func_read`: the returned `Value` and the object afterwards.
With a null `FILE*` the behaviour is undefined (`none`). -/
def file.func_read (self : file) : Option (Value × file) :=
  match self.file_ptr with
  | none => none
  | some fp =>
    let fp1 := fseek fp 0 .SEEK_END
    let size := ftell fp1
    let fp2 := fseek fp1 0 .SEEK_SET
    let r := fread size fp2
    let fcontent := r.1 ++ List.replicate (size - r.1.length) (Char.ofNat 0)
    some (Value.of_string (String.mk fcontent), { file_ptr := some r.2 })

/-! ## Specification-side notions used to state the properties -/

/-- Value of a string of decimal digits (Horner scheme). -/
def dec_value (l : List Char) : Nat :=
  l.foldl (fun a c => 10 * a + (c.toNat - 48)) 0

/-- The variants outside the promotion lattice: Absence, Sequence, Callable and
ObjectRef. -/
def outside_lattice (i : Inner) : Bool :=
  IS_NULL i || IS_VEC i || IS_FUNC i || IS_INSTANCE i

/-- The pairs of variants `operator<` compares: two numbers, or two texts. -/
def lt_defined (l r : Inner) : Bool :=
  ((IS_INT l || IS_FLOAT l) && (IS_INT r || IS_FLOAT r)) || (IS_STR l && IS_STR r)

mutual
/-- The value with every debug label, its own and those of nested elements,
replaced by the empty label. -/
def Value.erase_names : Value → Value
  | .mk _ inner => .mk "" (Inner.erase_names inner)
/-- The variant with the debug labels of nested elements erased. -/
def Inner.erase_names : Inner → Inner
  | .monostate => .monostate
  | .int i => .int i
  | .float f => .float f
  | .str s => .str s
  | .vec v => .vec (erase_names_list v)
  | .func f => .func f
  | .instance p => .instance p
/-- The elements of a vector with their debug labels erased. -/
def erase_names_list : List Value → List Value
  | [] => []
  | item :: rest => Value.erase_names item :: erase_names_list rest
end

/-! # Theorems -/

/-! ## Integer addition -/

theorem wrap_int_range (i : Int) : is_int32 (wrap_int i) := by
  unfold is_int32 wrap_int INT_MIN INT_MAX
  omega

theorem wrap_int_congr (i : Int) : ∃ k : Int, wrap_int i = i + k * 4294967296 := by
  refine ⟨-((i + 2147483648) / 4294967296), ?_⟩
  unfold wrap_int
  omega

theorem wrap_int_of_range (i : Int) (h : is_int32 i) : wrap_int i = i := by
  unfold is_int32 INT_MIN INT_MAX at h
  unfold wrap_int
  omega

/-- C1: `operator+` on two integers yields the Integer variant whose payload is
the exact sum reduced modulo 2^32 into the signed 32-bit range, and that
result compares equal (`operator==`) to `Integer(a+b wrapped)`.  E.g.
`Integer(2) + Integer(3)` is `Integer(5)` and `Integer(2147483647) + Integer(1)`
is `Integer(-2147483648)`. -/
theorem operator_plus_int_int (n1 n2 : String) (a b : Int) :
    ∃ p : Int,
      operator_plus (.mk n1 (.int a)) (.mk n2 (.int b)) = Value.of_int p ∧
      is_int32 p ∧
      (∃ k : Int, p = a + b + k * 4294967296) ∧
      p = wrap_int (a + b) ∧
      operator_eq (operator_plus (.mk n1 (.int a)) (.mk n2 (.int b)))
        (Value.of_int (wrap_int (a + b))) = true ∧
      operator_plus (Value.of_int 2) (Value.of_int 3) = Value.of_int 5 ∧
      operator_plus (Value.of_int 2147483647) (Value.of_int 1) = Value.of_int (-2147483648) := by
  refine ⟨wrap_int (a + b), rfl, wrap_int_range _, wrap_int_congr _, rfl, ?_, by rfl, by rfl⟩
  simp [operator_plus, operator_eq, Value.inner, Value.of_int]

/-! ## Text concatenation -/

theorem digit_char_spec (d : Nat) (h : d < 10) :
    (digit_char d).isDigit = true ∧ (digit_char d).toNat - 48 = d ∧
      (digit_char d = '0' ↔ d = 0) := by
  interval_cases d <;> decide

theorem dec_value_append (l : List Char) (c : Char) :
    dec_value (l ++ [c]) = 10 * dec_value l + (c.toNat - 48) := by
  simp [dec_value, List.foldl_append]

theorem dec_digits_aux_spec (fuel : Nat) :
    ∀ (n : Nat) (acc : List Char), n < fuel →
      ∃ ds : List Char, dec_digits_aux fuel n acc = ds ++ acc ∧
        ds.all Char.isDigit = true ∧ dec_value ds = n ∧
        (ds.head? ≠ some '0' ∨ ds = ['0']) ∧ (n ≠ 0 → ds.head? ≠ some '0') := by
  induction fuel with
  | zero => intro n acc h; omega
  | succ fuel ih =>
    intro n acc h
    unfold dec_digits_aux
    by_cases h10 : n < 10
    · obtain ⟨hd, hv, hz⟩ := digit_char_spec n h10
      refine ⟨[digit_char n], by simp [h10], by simp [hd], by simp [dec_value, hv], ?_, ?_⟩
      · by_cases h0 : n = 0
        · right; subst h0; rfl
        · left; simp; exact fun hc => h0 (hz.mp hc)
      · intro h0; simp; exact fun hc => h0 (hz.mp hc)
    · have hlt : n / 10 < fuel := by omega
      obtain ⟨ds, he, ha, hv, _, hh⟩ := ih (n / 10) (digit_char (n % 10) :: acc) hlt
      obtain ⟨hd, hdv, _⟩ := digit_char_spec (n % 10) (Nat.mod_lt _ (by decide))
      have hne : n / 10 ≠ 0 := by omega
      have hds : ds ≠ [] := by
        intro hnil; subst hnil; simp [dec_value] at hv; omega
      have hhead : (ds ++ [digit_char (n % 10)]).head? = ds.head? := by
        cases ds with
        | nil => exact absurd rfl hds
        | cons x xs => rfl
      refine ⟨ds ++ [digit_char (n % 10)], by simp [h10, he], ?_, ?_, ?_, ?_⟩
      · simp [List.all_append, ha, hd]
      · rw [dec_value_append, hv, hdv]; omega
      · left; rw [hhead]; exact hh hne
      · intro _; rw [hhead]; exact hh hne

theorem dec_digits_spec (n : Nat) :
    (dec_digits n).all Char.isDigit = true ∧ dec_value (dec_digits n) = n ∧
      ((dec_digits n).head? ≠ some '0' ∨ dec_digits n = ['0']) := by
  obtain ⟨ds, he, ha, hv, hz, _⟩ := dec_digits_aux_spec (n + 1) n [] (Nat.lt_succ_self n)
  have : dec_digits n = ds := by simp [dec_digits, he]
  rw [this]
  exact ⟨ha, hv, hz⟩

/-- C2: `operator+` concatenates a text with the decimal rendering of an
integer on either side, and two texts with each other.  The rendering is an
optional `-` (exactly for negative `n`) followed by decimal digits that read
back as the magnitude of `n` and have no leading zero (the single digit `0`
apart); e.g. `Text("x") + Integer(1)` is `Text("x1")` and
`Integer(1) + Text("x")` is `Text("1x")`. -/
theorem operator_plus_text (n1 n2 s t : String) (n : Int) :
    operator_plus (.mk n1 (.str s)) (.mk n2 (.int n)) = Value.of_string (s ++ to_string_int n) ∧
    operator_plus (.mk n1 (.int n)) (.mk n2 (.str s)) = Value.of_string (to_string_int n ++ s) ∧
    operator_plus (.mk n1 (.str s)) (.mk n2 (.str t)) = Value.of_string (s ++ t) ∧
    (∃ ds : List Char,
      to_string_int n = String.mk ((if n < 0 then ['-'] else []) ++ ds) ∧
      ds.all Char.isDigit = true ∧ dec_value ds = n.natAbs ∧
      (ds.head? ≠ some '0' ∨ ds = ['0'])) ∧
    operator_plus (Value.of_string "x") (Value.of_int 1) = Value.of_string "x1" ∧
    operator_plus (Value.of_int 1) (Value.of_string "x") = Value.of_string "1x" ∧
    to_string_int (-2147483648) = "-2147483648" := by
  refine ⟨rfl, rfl, rfl, ?_, by rfl, by rfl, by decide⟩
  obtain ⟨ha, hv, hz⟩ := dec_digits_spec n.natAbs
  refine ⟨dec_digits n.natAbs, ?_, ha, hv, hz⟩
  unfold to_string_int
  split <;> simp

/-! ## Text repetition -/

theorem repeat_loop_spec (sss : String) (n : Int) :
    ∀ (k : Nat) (i : Int) (tmp : String), (n - i).toNat = k →
      repeat_loop sss n i tmp =
        String.mk (tmp.data ++ (List.replicate k sss.data).flatten) := by
  intro k
  induction k with
  | zero =>
    intro i tmp h
    rw [repeat_loop, if_neg (by omega)]
    simp
  | succ k ih =>
    intro i tmp h
    rw [repeat_loop, if_pos (by omega), ih (i + 1) (tmp ++ sss) (by omega)]
    simp [List.replicate_succ]

/-- C3: `operator*` on a text `s` and an integer `n` returns the text made of
exactly `n` consecutive copies of `s` when `n > 0` and the empty text when
`n ≤ 0` (`Int.toNat` is `0` there, and every `n ≤ 0` is some `-k`); the loop
is a total function, so it ends for every `n`.  E.g. `Text("ab") * Integer(3)` is `Text("ababab")`,
`Text("ab") * Integer(0)` and `Text("ab") * Integer(-5)` are `Text("")`. -/
theorem operator_star_text_int (n1 n2 s : String) (n : Int) (k : Nat) :
    operator_star (.mk n1 (.str s)) (.mk n2 (.int n)) =
      Value.of_string (String.mk (List.replicate n.toNat s.data).flatten) ∧
    (String.mk (List.replicate n.toNat s.data).flatten).length = n.toNat * s.length ∧
    operator_star (.mk n1 (.str s)) (.mk n2 (.int (-(k : Int)))) = Value.of_string "" ∧
    operator_star (Value.of_string "ab") (Value.of_int 3) = Value.of_string "ababab" ∧
    operator_star (Value.of_string "ab") (Value.of_int 0) = Value.of_string "" ∧
    operator_star (Value.of_string "ab") (Value.of_int (-5)) = Value.of_string "" := by
  have key : ∀ (m1 m2 t : String) (m : Int),
      operator_star (.mk m1 (.str t)) (.mk m2 (.int m)) =
        Value.of_string (String.mk (List.replicate m.toNat t.data).flatten) := by
    intro m1 m2 t m
    show Value.of_string (repeat_loop t m 0 "") = _
    rw [repeat_loop_spec t m m.toNat 0 "" (by omega)]
    rfl
  refine ⟨key _ _ _ _, ?_, ?_, ?_, ?_, ?_⟩
  · show (List.replicate n.toNat s.data).flatten.length = n.toNat * s.data.length
    generalize n.toNat = k
    induction k with
    | zero => simp
    | succ k ih => rw [List.replicate_succ, List.flatten_cons, List.length_append, ih]; ring
  · rw [key, Int.toNat_of_nonpos (by omega)]
    rfl
  · rw [Value.of_string, Value.of_int, key]; rfl
  · rw [Value.of_string, Value.of_int, key]; rfl
  · rw [Value.of_string, Value.of_int, key]; rfl

/-! ## Integer division -/

theorem tmod_trunc (a b : Int) (hb : b ≠ 0) :
    (a.tmod b).natAbs < b.natAbs ∧ 0 ≤ a * a.tmod b := by
  rcases a with m | m <;> rcases b with n | n
  · have hn : n ≠ 0 := by intro h; subst h; exact hb rfl
    have := Nat.mod_lt m (Nat.pos_of_ne_zero hn)
    refine ⟨?_, ?_⟩
    · simp only [Int.tmod, Int.ofNat_eq_coe, Int.natAbs_ofNat]; exact this
    · simp only [Int.tmod, Int.ofNat_eq_coe]; positivity
  · have := Nat.mod_lt m (Nat.succ_pos n)
    refine ⟨?_, ?_⟩
    · simp only [Int.tmod, Int.ofNat_eq_coe, Int.natAbs_ofNat, Int.natAbs_negSucc]; exact this
    · simp only [Int.tmod, Int.ofNat_eq_coe]; positivity
  · have hn : n ≠ 0 := by intro h; subst h; exact hb rfl
    have := Nat.mod_lt (m + 1) (Nat.pos_of_ne_zero hn)
    refine ⟨?_, ?_⟩
    · simp only [Int.tmod, Int.ofNat_eq_coe, Int.natAbs_neg, Int.natAbs_ofNat]; exact this
    · simp only [Int.tmod, Int.ofNat_eq_coe, Int.negSucc_eq]
      have h0 : (0 : Int) ≤ ((m + 1) % n : Nat) := Int.ofNat_nonneg _
      nlinarith
  · have := Nat.mod_lt (m + 1) (Nat.succ_pos n)
    refine ⟨?_, ?_⟩
    · simp only [Int.tmod, Int.ofNat_eq_coe, Int.natAbs_neg, Int.natAbs_ofNat, Int.natAbs_negSucc]
      exact this
    · simp only [Int.tmod, Int.ofNat_eq_coe, Int.negSucc_eq]
      have h0 : (0 : Int) ≤ ((m + 1) % (n + 1) : Nat) := Int.ofNat_nonneg _
      nlinarith

theorem tdiv_range (a b : Int) (ha : is_int32 a) (hb : b ≠ 0)
    (hov : ¬(a = INT_MIN ∧ b = -1)) : is_int32 (a.tdiv b) := by
  unfold is_int32 INT_MIN INT_MAX at *
  have hq : (a.tdiv b).natAbs = a.natAbs / b.natAbs := Int.natAbs_tdiv a b
  have hle : a.natAbs / b.natAbs ≤ a.natAbs := Nat.div_le_self _ _
  by_cases h1 : b.natAbs = 1
  · rcases Int.natAbs_eq b with hb1 | hb1
    · rw [h1] at hb1
      have : b = 1 := by simpa using hb1
      subst this; simp; omega
    · rw [h1] at hb1
      have : b = -1 := by simpa using hb1
      subst this
      simp only [Int.reduceNeg, Int.tdiv_neg, Int.tdiv_one]
      omega
  · have h2 : 2 ≤ b.natAbs := by
      have : b.natAbs ≠ 0 := by simpa using hb
      omega
    have : a.natAbs / b.natAbs ≤ a.natAbs / 2 := Nat.div_le_div_left h2 (by decide)
    omega

/-- C4: for 32-bit integers `a`, `b` with `b ≠ 0` and not (`a = -2^31` and
`b = -1`), `operator/` returns the Integer variant holding the quotient
truncated toward zero: the result `q` is a 32-bit integer with
`a = q * b + r`, `|r| < |b|` and `r` zero or of the sign of `a`, so
`|q| = ⌊|a| / |b|⌋`.  E.g. `Integer(7) / Integer(2)` is `Integer(3)` and
`Integer(-7) / Integer(2)` is `Integer(-3)`, not `Integer(-4)`. -/
theorem operator_slash_int_int (n1 n2 : String) (a b : Int)
    (ha : is_int32 a) (_hb : is_int32 b) (hb0 : b ≠ 0)
    (hov : ¬(a = INT_MIN ∧ b = -1)) :
    ∃ q r : Int,
      operator_slash (.mk n1 (.int a)) (.mk n2 (.int b)) = some (Value.of_int q) ∧
      is_int32 q ∧ a = q * b + r ∧ r.natAbs < b.natAbs ∧ 0 ≤ a * r ∧
      q.natAbs = a.natAbs / b.natAbs ∧
      operator_slash (Value.of_int 7) (Value.of_int 2) = some (Value.of_int 3) ∧
      operator_slash (Value.of_int (-7)) (Value.of_int 2) = some (Value.of_int (-3)) ∧
      operator_slash (Value.of_int (-7)) (Value.of_int 2) ≠ some (Value.of_int (-4)) := by
  obtain ⟨hr, hs⟩ := tmod_trunc a b hb0
  refine ⟨a.tdiv b, a.tmod b, ?_, tdiv_range a b ha hb0 hov, (Int.tdiv_add_tmod' a b).symm,
    hr, hs, Int.natAbs_tdiv a b, by rfl, by rfl, ?_⟩
  · simp [operator_slash, Value.inner, int_div, hb0, hov]
  · simp [operator_slash, Value.inner, int_div, Value.of_int, INT_MIN]
    decide

/-- Instance of C4 at `a = -7`, `b = 2`. -/
theorem operator_slash_int_int_witness :
    ∃ q r : Int,
      operator_slash (.mk "" (.int (-7))) (.mk "" (.int 2)) = some (Value.of_int q) ∧
      is_int32 q ∧ (-7 : Int) = q * 2 + r ∧ r.natAbs < (2 : Int).natAbs ∧ 0 ≤ (-7 : Int) * r ∧
      q.natAbs = (-7 : Int).natAbs / (2 : Int).natAbs ∧
      operator_slash (Value.of_int 7) (Value.of_int 2) = some (Value.of_int 3) ∧
      operator_slash (Value.of_int (-7)) (Value.of_int 2) = some (Value.of_int (-3)) ∧
      operator_slash (Value.of_int (-7)) (Value.of_int 2) ≠ some (Value.of_int (-4)) :=
  operator_slash_int_int "" "" (-7) 2 (by decide) (by decide) (by decide) (by decide)

/-! ## Fallbacks, ordering and equality -/

/-- C5: operand pairings outside the promotion lattice yield Absence.  For each
of `+`, `-`, `*`, `/` the result is Absence when either operand is Absence, a
Sequence, a Callable or an ObjectRef; `Text - v` and `Text / v` are Absence
for every `v`; `Text * v` is Absence for every `v` that is not an Integer;
`Integer * Text`, `Float * Text`, `Integer - Text` and `Integer / Text` are
Absence. -/
theorem arithmetic_outside_lattice :
    (∀ v w : Value, outside_lattice v.inner = true ∨ outside_lattice w.inner = true →
      operator_plus v w = Value.null ∧ operator_minus v w = Value.null ∧
      operator_star v w = Value.null ∧ operator_slash v w = some Value.null) ∧
    (∀ (n : String) (s : String) (w : Value),
      operator_minus (.mk n (.str s)) w = Value.null ∧
      operator_slash (.mk n (.str s)) w = some Value.null) ∧
    (∀ (n : String) (s : String) (w : Value), IS_INT w.inner = false →
      operator_star (.mk n (.str s)) w = Value.null) ∧
    (∀ (n1 n2 : String) (i : Int) (f : F32) (s : String),
      operator_star (.mk n1 (.int i)) (.mk n2 (.str s)) = Value.null ∧
      operator_star (.mk n1 (.float f)) (.mk n2 (.str s)) = Value.null ∧
      operator_minus (.mk n1 (.int i)) (.mk n2 (.str s)) = Value.null ∧
      operator_slash (.mk n1 (.int i)) (.mk n2 (.str s)) = some Value.null) := by
  refine ⟨?_, ?_, ?_, ?_⟩
  · rintro ⟨n, i⟩ ⟨m, j⟩ h
    cases i <;> cases j <;>
      simp [outside_lattice, IS_NULL, IS_VEC, IS_FUNC, IS_INSTANCE, Value.inner] at h <;>
      exact ⟨rfl, rfl, rfl, rfl⟩
  · rintro n s ⟨m, j⟩
    cases j <;> exact ⟨rfl, rfl⟩
  · rintro n s ⟨m, j⟩ h
    cases j <;> simp [IS_INT, Value.inner] at h <;> rfl
  · intro n1 n2 i f s
    exact ⟨rfl, rfl, rfl, rfl⟩

/-- Instances of C5: a Sequence operand, and `Text * Float`. -/
theorem arithmetic_outside_lattice_witness :
    (operator_plus (Value.of_vec []) (Value.of_int 1) = Value.null ∧
      operator_minus (Value.of_vec []) (Value.of_int 1) = Value.null ∧
      operator_star (Value.of_vec []) (Value.of_int 1) = Value.null ∧
      operator_slash (Value.of_vec []) (Value.of_int 1) = some Value.null) ∧
    operator_star (Value.of_string "ab") (Value.of_float F32.zero) = Value.null :=
  ⟨arithmetic_outside_lattice.1 (Value.of_vec []) (Value.of_int 1) (Or.inl rfl),
    arithmetic_outside_lattice.2.2.1 "" "ab" (Value.of_float F32.zero) rfl⟩

theorem traits_compare_lex (l : List Char) :
    ∀ r : List Char,
      ((if traits_compare l r ≠ 0 then traits_compare l r
        else (l.length : Int) - (r.length : Int)) < 0) ↔
      List.Lex (fun a b => a < b) l r := by
  induction l with
  | nil =>
    intro r
    cases r with
    | nil => simp [traits_compare]
    | cons b r => simp [traits_compare, List.Lex.nil]; omega
  | cons a l ih =>
    intro r
    cases r with
    | nil => simp [traits_compare]; omega
    | cons b r =>
      rcases lt_trichotomy a b with hab | hab | hab
      · simp [traits_compare, hab, List.Lex.rel hab]
      · subst hab
        have hirr : ¬ a < a := lt_irrefl a
        rw [List.Lex.cons_iff, ← ih r]
        simp [traits_compare, hirr]
      · have hnot : ¬ a < b := not_lt_of_gt hab
        have hne : a ≠ b := ne_of_gt hab
        simp only [traits_compare, hnot, hab, if_true, if_false]
        constructor
        · intro h; simp at h
        · intro h
          cases h with
          | cons h' => exact absurd rfl hne
          | rel h' => exact absurd h' hnot

theorem string_lt_iff_lex (s t : String) :
    string_lt s t = true ↔ List.Lex (fun a b => a < b) s.data t.data := by
  unfold string_lt string_compare
  rw [decide_eq_true_iff]
  exact traits_compare_lex s.data t.data

/-- C6: `operator<` compares exactly the pairs Integer/Integer (signed order),
Integer/Float, Float/Integer, Float/Float (the integer converted to float) and
Text/Text (lexicographic order on the characters); for every other pair of
variants it is false in both directions.  For `a = Text("x")`, `b = Integer(1)`:
`a < b`, `b < a` and `a == b` are all false, so the order is not total. -/
theorem operator_lt_pairs :
    (∀ (n1 n2 : String) (a b : Int),
      operator_lt (.mk n1 (.int a)) (.mk n2 (.int b)) = true ↔ a < b) ∧
    (∀ (n1 n2 : String) (a : Int) (f : F32),
      operator_lt (.mk n1 (.int a)) (.mk n2 (.float f)) = F32.lt (F32.of_int a) f ∧
      operator_lt (.mk n1 (.float f)) (.mk n2 (.int a)) = F32.lt f (F32.of_int a)) ∧
    (∀ (n1 n2 : String) (f g : F32),
      operator_lt (.mk n1 (.float f)) (.mk n2 (.float g)) = F32.lt f g) ∧
    (∀ (n1 n2 : String) (s t : String),
      operator_lt (.mk n1 (.str s)) (.mk n2 (.str t)) = true ↔
        List.Lex (fun a b => a < b) s.data t.data) ∧
    (∀ v w : Value, lt_defined v.inner w.inner = false →
      operator_lt v w = false ∧ operator_lt w v = false) ∧
    (operator_lt (Value.of_string "x") (Value.of_int 1) = false ∧
      operator_lt (Value.of_int 1) (Value.of_string "x") = false ∧
      operator_eq (Value.of_string "x") (Value.of_int 1) = false) ∧
    (operator_lt (Value.of_int 1) (Value.of_float (F32.of_int 2)) = true ∧
      operator_lt (Value.of_float (F32.of_int 2)) (Value.of_int 1) = false ∧
      operator_lt (Value.of_float (F32.of_int (-2))) (Value.of_float (F32.of_int 1)) = true ∧
      operator_lt (Value.of_string "ab") (Value.of_string "abc") = true ∧
      operator_lt (Value.of_string "b") (Value.of_string "abc") = false) := by
  refine ⟨?_, ?_, ?_, ?_, ?_, ⟨rfl, rfl, rfl⟩, by decide⟩
  · intro n1 n2 a b
    simp [operator_lt, Value.inner]
  · intro n1 n2 a f
    exact ⟨rfl, rfl⟩
  · intro n1 n2 f g
    rfl
  · intro n1 n2 s t
    exact string_lt_iff_lex s t
  · rintro ⟨n, i⟩ ⟨m, j⟩ h
    cases i <;> cases j <;>
      simp [lt_defined, IS_INT, IS_FLOAT, IS_STR, Value.inner] at h <;>
      exact ⟨rfl, rfl⟩

/-- Instance of C6: a Text against a Sequence, and two concrete texts. -/
theorem operator_lt_pairs_witness :
    (operator_lt (Value.of_string "x") (Value.of_vec []) = false ∧
      operator_lt (Value.of_vec []) (Value.of_string "x") = false) ∧
    operator_lt (Value.of_int (-3)) (Value.of_int 2) = true :=
  ⟨operator_lt_pairs.2.2.2.2.1 (Value.of_string "x") (Value.of_vec []) rfl,
    (operator_lt_pairs.1 "" "" (-3) 2).mpr (by decide)⟩

/-- C7: `operator==` on two Integers is true exactly when the payloads are
equal, on two Texts exactly when the texts are equal; it is false whenever
either operand is Absence, a Sequence, a Callable or an ObjectRef, and for
every Integer/Text and Text/Integer pair.  So equality is not reflexive:
`Absence == Absence` is false and a Sequence is not equal to an identical
copy of itself, and `operator!=` is true for them. -/
theorem operator_eq_pairs :
    (∀ (n1 n2 : String) (a b : Int),
      operator_eq (.mk n1 (.int a)) (.mk n2 (.int b)) = true ↔ a = b) ∧
    (∀ (n1 n2 : String) (s t : String),
      operator_eq (.mk n1 (.str s)) (.mk n2 (.str t)) = true ↔ s = t) ∧
    (∀ v w : Value, outside_lattice v.inner = true ∨ outside_lattice w.inner = true →
      operator_eq v w = false) ∧
    (∀ (n1 n2 : String) (a : Int) (s : String),
      operator_eq (.mk n1 (.int a)) (.mk n2 (.str s)) = false ∧
      operator_eq (.mk n1 (.str s)) (.mk n2 (.int a)) = false) ∧
    (operator_eq Value.null Value.null = false ∧
      operator_ne Value.null Value.null = true) ∧
    (∀ (n : String) (items : List Value),
      operator_eq (.mk n (.vec items)) (.mk n (.vec items)) = false ∧
      operator_ne (.mk n (.vec items)) (.mk n (.vec items)) = true) := by
  refine ⟨?_, ?_, ?_, ?_, ⟨rfl, rfl⟩, ?_⟩
  · intro n1 n2 a b
    simp [operator_eq, Value.inner]
  · intro n1 n2 s t
    simp [operator_eq, Value.inner, string_eq]
  · rintro ⟨n, i⟩ ⟨m, j⟩ h
    cases i <;> cases j <;>
      simp [outside_lattice, IS_NULL, IS_VEC, IS_FUNC, IS_INSTANCE, Value.inner] at h <;>
      rfl
  · intro n1 n2 a s
    exact ⟨rfl, rfl⟩
  · intro n items
    exact ⟨rfl, rfl⟩

/-- Instance of C7: a Callable against an Integer, and two equal Integers. -/
theorem operator_eq_pairs_witness :
    operator_eq (Value.of_func (Function.mk 0)) (Value.of_int 1) = false ∧
    operator_eq (Value.of_int 5) (Value.of_int 5) = true :=
  ⟨operator_eq_pairs.2.2.1 (Value.of_func (Function.mk 0)) (Value.of_int 1) (Or.inl rfl),
    (operator_eq_pairs.1 "" "" 5 5).mpr rfl⟩

/-- C8: with a Float `f` on the left and an Integer or a Float `r` on the right,
`operator==` is the truth value of the sum `f + r`: it is false exactly when
that sum is a zero, whatever the comparison of `f` with `r` would say.  So
equality is not symmetric: `Integer(1) == Float(2.0)` is false while
`Float(2.0) == Integer(1)` is true, and `Float(0.0) == Float(0.0)` is false
although the two floats compare equal. -/
theorem operator_eq_float_left :
    (∀ (n1 n2 : String) (f : F32) (i : Int),
      operator_eq (.mk n1 (.float f)) (.mk n2 (.int i)) = F32.to_bool (F32.add f (F32.of_int i)) ∧
      (operator_eq (.mk n1 (.float f)) (.mk n2 (.int i)) = false ↔
        ∃ s e, F32.add f (F32.of_int i) = F32.fin s 0 e)) ∧
    (∀ (n1 n2 : String) (f r : F32),
      operator_eq (.mk n1 (.float f)) (.mk n2 (.float r)) = F32.to_bool (F32.add f r) ∧
      (operator_eq (.mk n1 (.float f)) (.mk n2 (.float r)) = false ↔
        ∃ s e, F32.add f r = F32.fin s 0 e)) ∧
    F32.of_int 2 = F32.fin false 8388608 (-22) ∧
    operator_eq (Value.of_int 1) (Value.of_float (F32.fin false 8388608 (-22))) = false ∧
    operator_eq (Value.of_float (F32.fin false 8388608 (-22))) (Value.of_int 1) = true ∧
    F32.eq (F32.fin false 8388608 (-22)) (F32.of_int 1) = false ∧
    operator_eq (Value.of_float F32.zero) (Value.of_float F32.zero) = false ∧
    F32.eq F32.zero F32.zero = true := by
  have hz : ∀ x : F32, F32.to_bool x = false ↔ ∃ s e, x = F32.fin s 0 e := by
    intro x
    cases x with
    | nan => simp [F32.to_bool]
    | inf s => simp [F32.to_bool]
    | fin s m e =>
      simp only [F32.to_bool, bne_eq_false_iff_eq, beq_iff_eq, F32.fin.injEq]
      constructor
      · intro h; exact ⟨s, e, rfl, h, rfl⟩
      · rintro ⟨_, _, _, h, _⟩; exact h
  refine ⟨?_, ?_, by decide, by decide, by decide, by decide, by decide, by decide⟩
  · intro n1 n2 f i
    exact ⟨rfl, hz _⟩
  · intro n1 n2 f r
    exact ⟨rfl, hz _⟩

/-! ## The file object -/

theorem fseek_end (fp : FILE) :
    fseek fp 0 .SEEK_END = { content := fp.content, pos := fp.content.length } := by
  have h : ¬ ((fp.content.length : Int) + 0 < 0) := by omega
  simp [fseek, h]

theorem fseek_set (fp : FILE) :
    fseek fp 0 .SEEK_SET = { content := fp.content, pos := 0 } := by
  simp [fseek]

theorem fread_all (c : List Char) :
    fread c.length { content := c, pos := 0 } = (c, { content := c, pos := c.length }) := by
  simp [fread]

theorem func_read_whole (c : List Char) (p : Nat) :
    file.func_read { file_ptr := some { content := c, pos := p } } =
      some (Value.of_string (String.mk c),
        { file_ptr := some { content := c, pos := c.length } }) := by
  simp only [file.func_read, fseek_end, fseek_set, ftell, fread_all]
  simp

/-- C9, as the code has it: every `func_read()` returns the whole content.  For
every file content `c`, a freshly opened `FILE` has its position at 0; the
first call on the file object returns `Text(c)` and leaves the position at
the end; the second call on the same instance seeks back to the start and
returns `Text(c)` again; and so does a call from any position `p`.  E.g. a
file holding `hello` gives `Text("hello")` and then `Text("hello")`. -/
theorem func_read_twice (c : List Char) (p : Nat) (filename : String) :
    fopen (fun _ => some c) filename = some { content := c, pos := 0 } ∧
    file.func_read { file_ptr := some { content := c, pos := 0 } } =
      some (Value.of_string (String.mk c),
        { file_ptr := some { content := c, pos := c.length } }) ∧
    file.func_read { file_ptr := some { content := c, pos := c.length } } =
      some (Value.of_string (String.mk c),
        { file_ptr := some { content := c, pos := c.length } }) ∧
    file.func_read { file_ptr := some { content := c, pos := p } } =
      some (Value.of_string (String.mk c),
        { file_ptr := some { content := c, pos := c.length } }) ∧
    (file.func_read { file_ptr := some { content := "hello".data, pos := 0 } }).map Prod.fst =
      some (Value.of_string "hello") ∧
    (file.func_read { file_ptr := some { content := "hello".data, pos := 5 } }).map Prod.fst =
      some (Value.of_string "hello") :=
  ⟨rfl, func_read_whole c 0, func_read_whole c c.length, func_read_whole c p, rfl, rfl⟩

/-- C9 fails as stated: on a file holding `hello` the second `func_read()` on the
same instance returns `Text("hello")`, not `Text("")`. -/
theorem func_read_second_not_empty :
    file.func_read { file_ptr := some { content := ['h', 'e', 'l', 'l', 'o'], pos := 0 } } =
      some (Value.of_string "hello",
        { file_ptr := some { content := ['h', 'e', 'l', 'l', 'o'], pos := 5 } }) ∧
    file.func_read { file_ptr := some { content := ['h', 'e', 'l', 'l', 'o'], pos := 5 } } =
      some (Value.of_string "hello",
        { file_ptr := some { content := ['h', 'e', 'l', 'l', 'o'], pos := 5 } }) ∧
    Value.of_string "hello" ≠ Value.of_string "" := by
  refine ⟨rfl, rfl, ?_⟩
  simp [Value.of_string]

/-! ## Stringification of sequences -/

mutual
theorem operator_shl_append : ∀ (v : Value) (os : String),
    operator_shl os v = os ++ operator_shl "" v
  | .mk _ inner, os => by
    rw [operator_shl, operator_shl]
    exact put_inner_append inner os
theorem put_inner_append : ∀ (i : Inner) (os : String),
    put_inner os i = os ++ put_inner "" i
  | .monostate, os => by simp [put_inner]
  | .int _, os => by simp [put_inner]
  | .float _, os => by simp [put_inner]
  | .str _, os => by simp [put_inner]
  | .vec v, os => by
    rw [put_inner, put_inner, put_loop_append v (os ++ "[ "), put_loop_append v ("" ++ "[ ")]
    simp [String.append_assoc]
  | .func _, os => by simp [put_inner]
  | .instance _, os => by simp [put_inner]
theorem put_loop_append : ∀ (l : List Value) (os : String),
    put_loop os l = os ++ put_loop "" l
  | [], os => by simp [put_loop]
  | item :: rest, os => by
    rw [put_loop, put_loop, put_loop_append rest (operator_shl os item ++ " "),
      put_loop_append rest (operator_shl "" item ++ " "), operator_shl_append item os]
    simp [String.append_assoc]
end

theorem string_join_foldl (l : List String) :
    ∀ acc : String, List.foldl (fun r s => r ++ s) acc l = acc ++ String.join l := by
  induction l with
  | nil => intro acc; simp [String.join]
  | cons x xs ih =>
    intro acc
    rw [String.join, List.foldl_cons, List.foldl_cons, ih, ih ("" ++ x)]
    simp [String.append_assoc]

theorem string_join_cons (x : String) (xs : List String) :
    String.join (x :: xs) = x ++ String.join xs := by
  rw [String.join, List.foldl_cons, string_join_foldl]
  simp

theorem intercalate_go (s : String) (l : List String) :
    ∀ acc : String, String.intercalate.go acc s l = acc ++ String.join (l.map (fun x => s ++ x)) := by
  induction l with
  | nil => intro acc; simp [String.intercalate.go, String.join]
  | cons x xs ih =>
    intro acc
    rw [String.intercalate.go, ih, List.map_cons, string_join_cons]
    simp [String.append_assoc]

theorem put_loop_join (l : List Value) :
    put_loop "" l = String.join (l.map (fun x => Value.render x ++ " ")) := by
  induction l with
  | nil => simp [put_loop, String.join]
  | cons x xs ih =>
    rw [put_loop, put_loop_append, ih, List.map_cons, string_join_cons]
    rfl

theorem join_space_intercalate (x : String) (xs : List String) :
    String.join ((x :: xs).map (fun p => p ++ " ")) = " ".intercalate (x :: xs) ++ " " := by
  induction xs generalizing x with
  | nil => simp [String.intercalate, String.intercalate.go, string_join_cons, String.join]
  | cons y ys ih =>
    rw [List.map_cons, string_join_cons, ih y]
    simp only [String.intercalate, intercalate_go, List.map_cons, string_join_cons]
    simp [String.append_assoc]

/-- C10, as the code has it: a Sequence is written as `"[ "`, then each element's
stringification followed by one space, then `"]"`, recursively.  For a
non-empty Sequence that is `"[ "`, the elements separated by single spaces,
and `" ]"`; the empty Sequence gives `"[ ]"`.  E.g. `[Integer(1), Text("x")]`
gives `"[ 1 x ]"`. -/
theorem operator_shl_sequence (n : String) (items : List Value) (os : String) :
    operator_shl os (.mk n (.vec items)) =
      os ++ "[ " ++ String.join (items.map (fun x => Value.render x ++ " ")) ++ "]" ∧
    (items ≠ [] →
      Value.render (.mk n (.vec items)) =
        "[ " ++ " ".intercalate (items.map Value.render) ++ " ]") ∧
    Value.render (.mk n (.vec [])) = "[ ]" ∧
    Value.render (Value.of_vec [Value.of_int 1, Value.of_string "x"]) = "[ 1 x ]" ∧
    Value.render (Value.of_vec [Value.of_vec [Value.of_int 1], Value.of_vec []]) =
      "[ [ 1 ] [ ] ]" := by
  have key : ∀ os : String, operator_shl os (.mk n (.vec items)) =
      os ++ "[ " ++ String.join (items.map (fun x => Value.render x ++ " ")) ++ "]" := by
    intro os
    rw [operator_shl, put_inner, put_loop_append, put_loop_join]
  refine ⟨key os, ?_, by rfl, by decide, by decide⟩
  intro hne
  cases items with
  | nil => exact absurd rfl hne
  | cons x xs =>
    rw [Value.render, key ""]
    have h := join_space_intercalate (Value.render x) (xs.map Value.render)
    rw [← List.map_cons, List.map_map] at h
    have h2 : ((fun p => p ++ " ") ∘ Value.render) = fun x => Value.render x ++ " " := rfl
    rw [h2] at h
    rw [h, List.map_cons]
    have hs : (" ]" : String) = " " ++ "]" := by decide
    rw [hs]
    simp [String.append_assoc]

/-- Instance of C10 (as the code has it) at a two-element Sequence. -/
theorem operator_shl_sequence_witness :
    Value.render (.mk "" (.vec [Value.of_int 1, Value.of_string "x"])) =
      "[ " ++ " ".intercalate ([Value.of_int 1, Value.of_string "x"].map Value.render) ++ " ]" :=
  (operator_shl_sequence "" [Value.of_int 1, Value.of_string "x"] "").2.1 (by simp)

/-- C10 fails as stated at the empty Sequence: the code writes `"[ ]"`, while
`"[ "`, no elements and `" ]"` is `"[  ]"` with two spaces. -/
theorem operator_shl_empty_sequence :
    Value.render (Value.of_vec []) = "[ ]" ∧
    Value.render (Value.of_vec []) ≠
      "[ " ++ " ".intercalate (([] : List Value).map Value.render) ++ " ]" := by
  decide

/-! ## Narrowing accessors and the type query -/

/-- C11: the narrowing accessors succeed exactly when the variant matches:
`as_string` returns the text exactly for a Text, `as_func` the callable
exactly for a Callable, `as_instance` the pointer exactly for an ObjectRef.
Otherwise the accessor takes the fatal path: the diagnostic line written
before `exit(1)` is a fixed phrase followed by `get_type(v)` (and the line
terminator).  `as_func` on any Text fails with the actual type `string`. -/
theorem narrowing_accessors (v : Value) :
    (∀ s : String, v.as_string = .ok s ↔ v.inner = .str s) ∧
    (∀ f : Function, v.as_func = .ok f ↔ v.inner = .func f) ∧
    (∀ p : ObjectPtr, v.as_instance = .ok p ↔ v.inner = .instance p) ∧
    (IS_STR v.inner = true ∨
      v.as_string = .error
        (("value is not an string nor convertible to a string but " ++ v.get_type) ++ "\n")) ∧
    (IS_FUNC v.inner = true ∨
      v.as_func = .error (("value is not a function but " ++ v.get_type) ++ "\n")) ∧
    (IS_INSTANCE v.inner = true ∨
      v.as_instance = .error (("value is not an instance but " ++ v.get_type) ++ "\n")) ∧
    (∀ (n s : String),
      (Value.mk n (.str s)).as_func = .error "value is not a function but string\n" ∧
      (Value.mk n (.str s)).get_type = "string") := by
  obtain ⟨n, i⟩ := v
  refine ⟨?_, ?_, ?_, ?_, ?_, ?_, ?_⟩
  · intro s
    cases i <;> simp [Value.as_string, Value.inner]
  · intro f
    cases i <;> simp [Value.as_func, Value.inner]
  · intro p
    cases i <;> simp [Value.as_instance, Value.inner]
  · cases i <;> simp [Value.as_string, Value.inner, IS_STR, String.append_assoc]
  · cases i <;> simp [Value.as_func, Value.inner, IS_FUNC, String.append_assoc]
  · cases i <;> simp [Value.as_instance, Value.inner, IS_INSTANCE, String.append_assoc]
  · intro n s
    exact ⟨rfl, rfl⟩

/-- Instance of C11: `as_string` on a Text, `as_func` on an Integer. -/
theorem narrowing_accessors_witness :
    (Value.of_string "a.txt").as_string = .ok "a.txt" ∧
    (IS_FUNC (Value.of_int 1).inner = true ∨
      (Value.of_int 1).as_func =
        .error (("value is not a function but " ++ (Value.of_int 1).get_type) ++ "\n")) :=
  ⟨((narrowing_accessors (Value.of_string "a.txt")).1 "a.txt").mpr rfl,
    (narrowing_accessors (Value.of_int 1)).2.2.2.2.1⟩

theorem get_type_loop_append (l : List Value) :
    ∀ str : String, get_type_loop str l =
      str ++ String.join (l.map (fun x => Value.get_type x ++ " ")) := by
  induction l with
  | nil => intro str; simp [get_type_loop, String.join]
  | cons x xs ih =>
    intro str
    rw [get_type_loop, ih, List.map_cons, string_join_cons]
    simp [String.append_assoc]

theorem get_type_vec (n : String) (items : List Value) :
    (Value.mk n (.vec items)).get_type =
      "[ " ++ String.join (items.map (fun x => Value.get_type x ++ " ")) ++ "]" := by
  rw [Value.get_type, Inner.get_type, get_type_loop_append]

/-- C12: `get_type` reports the active variant: `NULL`, `int`, `float`, `string`,
`function`, `instance` for Absence, Integer, Float, Text, Callable, ObjectRef;
for a Sequence it is `"[ "`, then each element's `get_type` followed by a
space, then `"]"`, recursively (`[Integer, Text]` gives `"[ int string ]"`).
The fallback `unknown` is never returned. -/
theorem get_type_reports_variant (v : Value) (n : String) :
    (Value.mk n .monostate).get_type = "NULL" ∧
    (∀ i : Int, (Value.mk n (.int i)).get_type = "int") ∧
    (∀ f : F32, (Value.mk n (.float f)).get_type = "float") ∧
    (∀ s : String, (Value.mk n (.str s)).get_type = "string") ∧
    (∀ f : Function, (Value.mk n (.func f)).get_type = "function") ∧
    (∀ p : ObjectPtr, (Value.mk n (.instance p)).get_type = "instance") ∧
    (∀ items : List Value, (Value.mk n (.vec items)).get_type =
      "[ " ++ String.join (items.map (fun x => Value.get_type x ++ " ")) ++ "]") ∧
    (Value.of_vec [Value.of_int 1, Value.of_string "x"]).get_type = "[ int string ]" ∧
    (Value.of_vec [Value.of_vec [Value.of_int 1], Value.null]).get_type = "[ [ int ] NULL ]" ∧
    v.get_type ≠ "unknown" := by
  refine ⟨rfl, fun _ => rfl, fun _ => rfl, fun _ => rfl, fun _ => rfl, fun _ => rfl,
    fun items => get_type_vec n items, by decide, by decide, ?_⟩
  obtain ⟨m, i⟩ := v
  cases i with
  | vec items =>
    rw [get_type_vec]
    intro h
    have h2 := congrArg (fun s : String => s.data.head?) h
    simp [String.data_append] at h2
  | _ =>
    simp only [Value.get_type, Inner.get_type]
    decide

/-! ## The debug label and the derived comparisons -/

theorem operators_erase_left (v w : Value) :
    operator_plus v w = operator_plus v.erase_names w ∧
    operator_minus v w = operator_minus v.erase_names w ∧
    operator_star v w = operator_star v.erase_names w ∧
    operator_slash v w = operator_slash v.erase_names w ∧
    operator_lt v w = operator_lt v.erase_names w ∧
    operator_eq v w = operator_eq v.erase_names w := by
  obtain ⟨n, i⟩ := v
  cases i <;> exact ⟨rfl, rfl, rfl, rfl, rfl, rfl⟩

theorem operators_erase_right (w v : Value) :
    operator_plus w v = operator_plus w v.erase_names ∧
    operator_minus w v = operator_minus w v.erase_names ∧
    operator_star w v = operator_star w v.erase_names ∧
    operator_slash w v = operator_slash w v.erase_names ∧
    operator_lt w v = operator_lt w v.erase_names ∧
    operator_eq w v = operator_eq w v.erase_names := by
  obtain ⟨n, i⟩ := v
  obtain ⟨m, j⟩ := w
  cases i <;> cases j <;> exact ⟨rfl, rfl, rfl, rfl, rfl, rfl⟩

mutual
theorem get_type_erase : ∀ v : Value, v.erase_names.get_type = v.get_type
  | .mk _ inner => by
    rw [Value.erase_names, Value.get_type, Value.get_type]
    exact inner_get_type_erase inner
theorem inner_get_type_erase : ∀ i : Inner, i.erase_names.get_type = i.get_type
  | .monostate => rfl
  | .int _ => rfl
  | .float _ => rfl
  | .str _ => rfl
  | .vec v => by
    rw [Inner.erase_names, Inner.get_type, Inner.get_type]
    rw [get_type_loop_erase v "[ "]
  | .func _ => rfl
  | .instance _ => rfl
theorem get_type_loop_erase : ∀ (l : List Value) (str : String),
    get_type_loop str (erase_names_list l) = get_type_loop str l
  | [], _ => rfl
  | item :: rest, str => by
    rw [erase_names_list, get_type_loop, get_type_loop, get_type_erase item,
      get_type_loop_erase rest]
end

mutual
theorem operator_shl_erase : ∀ (v : Value) (os : String),
    operator_shl os v.erase_names = operator_shl os v
  | .mk _ inner, os => by
    rw [Value.erase_names, operator_shl, operator_shl]
    exact put_inner_erase inner os
theorem put_inner_erase : ∀ (i : Inner) (os : String),
    put_inner os i.erase_names = put_inner os i
  | .monostate, _ => rfl
  | .int _, _ => rfl
  | .float _, _ => rfl
  | .str _, _ => rfl
  | .vec v, os => by
    rw [Inner.erase_names, put_inner, put_inner, put_loop_erase v (os ++ "[ ")]
  | .func _, _ => rfl
  | .instance _, _ => rfl
theorem put_loop_erase : ∀ (l : List Value) (os : String),
    put_loop os (erase_names_list l) = put_loop os l
  | [], _ => rfl
  | item :: rest, os => by
    rw [erase_names_list, put_loop, put_loop, operator_shl_erase item,
      put_loop_erase rest]
end

/-- C13: the debug label has no semantic effect.  For two values `v`, `v'` that
differ only in debug labels (they agree once the labels are erased; this
covers two values with different `name` over the same variant) and every
value `w`, each of `+`, `-`, `*`, `/`, `<`, `==` gives the same result on
`(v, w)` as on `(v', w)` and on `(w, v)` as on `(w, v')`, and `get_type` and
the stringification are the same for both. -/
theorem name_has_no_effect (v v' w : Value) (os : String)
    (h : v.erase_names = v'.erase_names) :
    (operator_plus v w = operator_plus v' w ∧ operator_plus w v = operator_plus w v') ∧
    (operator_minus v w = operator_minus v' w ∧ operator_minus w v = operator_minus w v') ∧
    (operator_star v w = operator_star v' w ∧ operator_star w v = operator_star w v') ∧
    (operator_slash v w = operator_slash v' w ∧ operator_slash w v = operator_slash w v') ∧
    (operator_lt v w = operator_lt v' w ∧ operator_lt w v = operator_lt w v') ∧
    (operator_eq v w = operator_eq v' w ∧ operator_eq w v = operator_eq w v') ∧
    v.get_type = v'.get_type ∧
    operator_shl os v = operator_shl os v' ∧
    v.render = v'.render ∧
    (∀ (n m : String) (i : Inner), (Value.mk n i).erase_names = (Value.mk m i).erase_names) := by
  obtain ⟨l1, l2, l3, l4, l5, l6⟩ := operators_erase_left v w
  obtain ⟨k1, k2, k3, k4, k5, k6⟩ := operators_erase_left v' w
  obtain ⟨r1, r2, r3, r4, r5, r6⟩ := operators_erase_right w v
  obtain ⟨s1, s2, s3, s4, s5, s6⟩ := operators_erase_right w v'
  refine ⟨⟨?_, ?_⟩, ⟨?_, ?_⟩, ⟨?_, ?_⟩, ⟨?_, ?_⟩, ⟨?_, ?_⟩, ⟨?_, ?_⟩, ?_, ?_, ?_, ?_⟩
  · rw [l1, k1, h]
  · rw [r1, s1, h]
  · rw [l2, k2, h]
  · rw [r2, s2, h]
  · rw [l3, k3, h]
  · rw [r3, s3, h]
  · rw [l4, k4, h]
  · rw [r4, s4, h]
  · rw [l5, k5, h]
  · rw [r5, s5, h]
  · rw [l6, k6, h]
  · rw [r6, s6, h]
  · rw [← get_type_erase v, ← get_type_erase v', h]
  · rw [← operator_shl_erase v, ← operator_shl_erase v', h]
  · rw [Value.render, Value.render, ← operator_shl_erase v, ← operator_shl_erase v', h]
  · intro n m i
    rw [Value.erase_names, Value.erase_names]

/-- Instance of C13: a named and an unnamed Callable over the same function,
against an Integer. -/
theorem name_has_no_effect_witness :
    operator_eq (Value.of_named_func "f" (Function.mk 0)) (Value.of_int 1) =
      operator_eq (Value.of_func (Function.mk 0)) (Value.of_int 1) ∧
    (Value.of_named_func "f" (Function.mk 0)).render = (Value.of_func (Function.mk 0)).render :=
  ⟨(name_has_no_effect (Value.of_named_func "f" (Function.mk 0)) (Value.of_func (Function.mk 0))
      (Value.of_int 1) "" rfl).2.2.2.2.2.1.1,
    (name_has_no_effect (Value.of_named_func "f" (Function.mk 0)) (Value.of_func (Function.mk 0))
      (Value.of_int 1) "" rfl).2.2.2.2.2.2.2.2.1⟩

/-- C14: the derived comparisons are defined from `operator<` and `operator==`
alone: `a > b` is `b < a`, `a <= b` is `not (b < a)`, `a >= b` is
`not (a < b)` and `a != b` is `not (a == b)`. -/
theorem derived_comparisons (a b : Value) :
    operator_gt a b = operator_lt b a ∧
    operator_le a b = !(operator_lt b a) ∧
    operator_ge a b = !(operator_lt a b) ∧
    operator_ne a b = !(operator_eq a b) ∧
    (operator_gt (Value.of_int 2) (Value.of_int 1) = true ∧
      operator_le (Value.of_int 2) (Value.of_int 1) = false ∧
      operator_ge (Value.of_int 2) (Value.of_int 1) = true ∧
      operator_ne (Value.of_int 2) (Value.of_int 1) = true) :=
  ⟨rfl, rfl, rfl, rfl, by decide⟩

/-! ## Numeric promotion -/

/-- C15: for each of `+`, `-`, `*`, `/`, an Integer with a Float, a Float with an
Integer, or two Floats give a Float (the integer operand converted to float
first), whatever the payloads.  E.g. `Integer(2) + Float(1.5)` is
`Float(3.5)`. -/
theorem mixed_arithmetic_is_float (n1 n2 : String) (a : Int) (f g : F32) :
    (operator_plus (.mk n1 (.int a)) (.mk n2 (.float f)) =
        Value.of_float (F32.add (F32.of_int a) f) ∧
      operator_plus (.mk n1 (.float f)) (.mk n2 (.int a)) =
        Value.of_float (F32.add f (F32.of_int a)) ∧
      operator_plus (.mk n1 (.float f)) (.mk n2 (.float g)) = Value.of_float (F32.add f g)) ∧
    (operator_minus (.mk n1 (.int a)) (.mk n2 (.float f)) =
        Value.of_float (F32.sub (F32.of_int a) f) ∧
      operator_minus (.mk n1 (.float f)) (.mk n2 (.int a)) =
        Value.of_float (F32.sub f (F32.of_int a)) ∧
      operator_minus (.mk n1 (.float f)) (.mk n2 (.float g)) = Value.of_float (F32.sub f g)) ∧
    (operator_star (.mk n1 (.int a)) (.mk n2 (.float f)) =
        Value.of_float (F32.mul (F32.of_int a) f) ∧
      operator_star (.mk n1 (.float f)) (.mk n2 (.int a)) =
        Value.of_float (F32.mul f (F32.of_int a)) ∧
      operator_star (.mk n1 (.float f)) (.mk n2 (.float g)) = Value.of_float (F32.mul f g)) ∧
    (operator_slash (.mk n1 (.int a)) (.mk n2 (.float f)) =
        some (Value.of_float (F32.div (F32.of_int a) f)) ∧
      operator_slash (.mk n1 (.float f)) (.mk n2 (.int a)) =
        some (Value.of_float (F32.div f (F32.of_int a))) ∧
      operator_slash (.mk n1 (.float f)) (.mk n2 (.float g)) =
        some (Value.of_float (F32.div f g))) ∧
    (∀ x : F32, IS_FLOAT (Value.of_float x).inner = true ∧
      IS_INT (Value.of_float x).inner = false ∧ IS_STR (Value.of_float x).inner = false ∧
      IS_NULL (Value.of_float x).inner = false) ∧
    F32.div (F32.of_int 3) (F32.of_int 2) = F32.fin false 12582912 (-23) ∧
    F32.div (F32.of_int 7) (F32.of_int 2) = F32.fin false 14680064 (-22) ∧
    operator_plus (Value.of_int 2) (Value.of_float (F32.fin false 12582912 (-23))) =
      Value.of_float (F32.fin false 14680064 (-22)) ∧
    operator_slash (Value.of_float (F32.of_int 7)) (Value.of_int 2) =
      some (Value.of_float (F32.fin false 14680064 (-22))) ∧
    operator_slash (Value.of_float (F32.of_int 7)) (Value.of_int 0) =
      some (Value.of_float (F32.inf false)) :=
  ⟨⟨rfl, rfl, rfl⟩, ⟨rfl, rfl, rfl⟩, ⟨rfl, rfl, rfl⟩, ⟨rfl, rfl, rfl⟩,
    fun _ => ⟨rfl, rfl, rfl, rfl⟩, by decide, by decide, by rfl, by rfl, by rfl⟩

/-! ## Stringification of the other variants -/

/-- C16: stringification of the non-sequence variants.  Absence is written as
`NULL`, a Text as its content, an Integer as its decimal text (an optional
`-` and digits that read back as the magnitude), every Callable as
`<lambda#1>` whatever function it holds, and for an ObjectRef nothing is
written. -/
theorem render_scalars (n os : String) :
    (Value.mk n .monostate).render = "NULL" ∧
    (∀ s : String, (Value.mk n (.str s)).render = s) ∧
    (∀ i : Int, (Value.mk n (.int i)).render = to_string_int i ∧
      ∃ ds : List Char,
        (Value.mk n (.int i)).render = String.mk ((if i < 0 then ['-'] else []) ++ ds) ∧
        ds.all Char.isDigit = true ∧ dec_value ds = i.natAbs) ∧
    (∀ f : Function, (Value.mk n (.func f)).render = "<lambda#1>") ∧
    (∀ p : ObjectPtr, (Value.mk n (.instance p)).render = "" ∧
      operator_shl os (.mk n (.instance p)) = os) ∧
    (Value.of_int (-42)).render = "-42" ∧
    (Value.of_string "a b").render = "a b" ∧
    (Value.of_named_func "f" (Function.mk 1)).render = (Value.of_func (Function.mk 2)).render := by
  refine ⟨by rfl, ?_, ?_, fun _ => by rfl, fun _ => ⟨by rfl, by rfl⟩, by decide, by decide,
    by decide⟩
  · intro s
    show "" ++ s = s
    simp
  · intro i
    have hr : (Value.mk n (.int i)).render = to_string_int i := by
      show "" ++ to_string_int i = to_string_int i
      simp
    refine ⟨hr, ?_⟩
    obtain ⟨ha, hv, _⟩ := dec_digits_spec i.natAbs
    refine ⟨dec_digits i.natAbs, ?_, ha, hv⟩
    rw [hr]
    unfold to_string_int
    split <;> simp

/-! ## Order properties -/

theorem f32_lt_irrefl (x : F32) : F32.lt x x = false := by
  cases x with
  | nan => rfl
  | inf s => cases s <;> rfl
  | fin s m e => simp [F32.lt]

theorem lex_irrefl (l : List Char) : ¬ List.Lex (fun a b => a < b) l l := by
  induction l with
  | nil => intro h; cases h
  | cons a l ih =>
    intro h
    cases h with
    | cons h' => exact ih h'
    | rel h' => exact lt_irrefl a h'

theorem lex_trans {l1 l2 l3 : List Char} (h1 : List.Lex (fun a b => a < b) l1 l2)
    (h2 : List.Lex (fun a b => a < b) l2 l3) : List.Lex (fun a b => a < b) l1 l3 := by
  induction h1 generalizing l3 with
  | nil =>
    cases h2 with
    | cons _ => exact List.Lex.nil
    | rel _ => exact List.Lex.nil
  | cons _ ih =>
    cases h2 with
    | cons h' => exact List.Lex.cons (ih h')
    | rel h' => exact List.Lex.rel h'
  | rel hab =>
    cases h2 with
    | cons _ => exact List.Lex.rel hab
    | rel hbc => exact List.Lex.rel (lt_trans hab hbc)

theorem operator_lt_irrefl (v : Value) : operator_lt v v = false := by
  obtain ⟨n, i⟩ := v
  cases i with
  | int a => simp [operator_lt, Value.inner]
  | float f => exact f32_lt_irrefl f
  | str s =>
    have h := string_lt_iff_lex s s
    have h2 := lex_irrefl s.data
    show string_lt s s = false
    cases hs : string_lt s s with
    | false => rfl
    | true => exact absurd (h.mp hs) h2
  | _ => rfl

/-- C17: when `operator<` cannot compare `a` and `b` (both `a < b` and `b < a`
are false) both `a <= b` and `a >= b` are true.  This includes every pair
with an Absence, Sequence, Callable or ObjectRef on either side and every
Integer/Text pair.  In particular `v <= v` and `v >= v` hold for every
value, also where `v == v` is false (Absence), so `a <= b` with `a >= b`
does not imply `a == b`. -/
theorem incomparable_le_ge :
    (∀ a b : Value, operator_lt a b = false → operator_lt b a = false →
      operator_le a b = true ∧ operator_ge a b = true) ∧
    (∀ a b : Value, outside_lattice a.inner = true ∨ outside_lattice b.inner = true →
      operator_lt a b = false ∧ operator_lt b a = false ∧
      operator_le a b = true ∧ operator_ge a b = true) ∧
    (∀ (n1 n2 : String) (i : Int) (s : String),
      operator_le (.mk n1 (.int i)) (.mk n2 (.str s)) = true ∧
      operator_ge (.mk n1 (.int i)) (.mk n2 (.str s)) = true ∧
      operator_le (.mk n2 (.str s)) (.mk n1 (.int i)) = true ∧
      operator_ge (.mk n2 (.str s)) (.mk n1 (.int i)) = true) ∧
    (∀ v : Value, operator_le v v = true ∧ operator_ge v v = true) ∧
    (operator_le Value.null Value.null = true ∧ operator_ge Value.null Value.null = true ∧
      operator_eq Value.null Value.null = false) := by
  refine ⟨?_, ?_, ?_, ?_, ⟨rfl, rfl, rfl⟩⟩
  · intro a b h1 h2
    simp [operator_le, operator_ge, operator_gt, h1, h2]
  · rintro ⟨n, i⟩ ⟨m, j⟩ h
    cases i <;> cases j <;>
      simp [outside_lattice, IS_NULL, IS_VEC, IS_FUNC, IS_INSTANCE, Value.inner] at h <;>
      exact ⟨rfl, rfl, rfl, rfl⟩
  · intro n1 n2 i s
    exact ⟨rfl, rfl, rfl, rfl⟩
  · intro v
    simp [operator_le, operator_ge, operator_gt, operator_lt_irrefl v]

/-- Instance of C17: a Text against an Integer. -/
theorem incomparable_le_ge_witness :
    operator_le (Value.of_string "x") (Value.of_int 1) = true ∧
    operator_ge (Value.of_string "x") (Value.of_int 1) = true :=
  incomparable_le_ge.1 (Value.of_string "x") (Value.of_int 1) rfl rfl

theorem operator_lt_nonfloat (a b : Value) (ha : IS_FLOAT a.inner = false)
    (hb : IS_FLOAT b.inner = false) :
    operator_lt a b = true ↔
      (∃ i j : Int, a.inner = .int i ∧ b.inner = .int j ∧ i < j) ∨
      (∃ s t : String, a.inner = .str s ∧ b.inner = .str t ∧
        List.Lex (fun x y => x < y) s.data t.data) := by
  obtain ⟨n, i⟩ := a
  obtain ⟨m, j⟩ := b
  cases i <;> cases j <;>
    simp [operator_lt, Value.inner, IS_FLOAT, string_lt_iff_lex] at ha hb ⊢

/-- C18: on values whose variant is not Float, `operator<` is a strict partial
order: `a < a` is false, `a < b` excludes `b < a`, and `a < b` with `b < c`
gives `a < c`. -/
theorem operator_lt_strict_order (a b c : Value)
    (ha : IS_FLOAT a.inner = false) (hb : IS_FLOAT b.inner = false)
    (hc : IS_FLOAT c.inner = false) :
    operator_lt a a = false ∧
    (operator_lt a b = true → operator_lt b a = false) ∧
    (operator_lt a b = true → operator_lt b c = true → operator_lt a c = true) := by
  refine ⟨operator_lt_irrefl a, ?_, ?_⟩
  · intro h
    cases hba : operator_lt b a with
    | false => rfl
    | true =>
      exfalso
      rcases (operator_lt_nonfloat a b ha hb).mp h with ⟨i, j, hi, hj, hij⟩ | ⟨s, t, hs, ht, hst⟩
      · rcases (operator_lt_nonfloat b a hb ha).mp hba with
          ⟨j', i', hj', hi', hji⟩ | ⟨t', s', ht', _, _⟩
        · rw [hi] at hi'; rw [hj] at hj'
          injection hi' with e1
          injection hj' with e2
          omega
        · rw [hj] at ht'; cases ht'
      · rcases (operator_lt_nonfloat b a hb ha).mp hba with
          ⟨j', i', hj', _, _⟩ | ⟨t', s', ht', hs', hts⟩
        · rw [ht] at hj'; cases hj'
        · rw [hs] at hs'; rw [ht] at ht'
          injection hs' with e1
          injection ht' with e2
          subst e1; subst e2
          exact lex_irrefl s.data (lex_trans hst hts)
  · intro h h'
    rcases (operator_lt_nonfloat a b ha hb).mp h with ⟨i, j, hi, hj, hij⟩ | ⟨s, t, hs, ht, hst⟩
    · rcases (operator_lt_nonfloat b c hb hc).mp h' with
        ⟨j', k, hj', hk, hjk⟩ | ⟨t', u, ht', _, _⟩
      · rw [hj] at hj'
        injection hj' with e
        exact (operator_lt_nonfloat a c ha hc).mpr (Or.inl ⟨i, k, hi, hk, by omega⟩)
      · rw [hj] at ht'; cases ht'
    · rcases (operator_lt_nonfloat b c hb hc).mp h' with
        ⟨j', k, hj', _, _⟩ | ⟨t', u, ht', hu, htu⟩
      · rw [ht] at hj'; cases hj'
      · rw [ht] at ht'
        injection ht' with e
        subst e
        exact (operator_lt_nonfloat a c ha hc).mpr (Or.inr ⟨s, u, hs, hu, lex_trans hst htu⟩)

/-- Instance of C18 at the Integers 1, 2, 3. -/
theorem operator_lt_strict_order_witness :
    operator_lt (Value.of_int 1) (Value.of_int 1) = false ∧
    (operator_lt (Value.of_int 1) (Value.of_int 2) = true →
      operator_lt (Value.of_int 2) (Value.of_int 1) = false) ∧
    (operator_lt (Value.of_int 1) (Value.of_int 2) = true →
      operator_lt (Value.of_int 2) (Value.of_int 3) = true →
      operator_lt (Value.of_int 1) (Value.of_int 3) = true) :=
  operator_lt_strict_order (Value.of_int 1) (Value.of_int 2) (Value.of_int 3) rfl rfl rfl

/-! ## Associativity of `operator+` -/

/-- C19: `operator+` is associative on Text operands, both groupings hold the
concatenation of the three texts; it is not associative across variants:
with `a = Text("x")`, `b = Integer(1)`, `c = Integer(2)` the grouping
`(a+b)+c` is `Text("x12")` and `a+(b+c)` is `Text("x3")`. -/
theorem operator_plus_assoc_text (n1 n2 n3 s t u : String) :
    operator_plus (operator_plus (.mk n1 (.str s)) (.mk n2 (.str t))) (.mk n3 (.str u)) =
      operator_plus (.mk n1 (.str s)) (operator_plus (.mk n2 (.str t)) (.mk n3 (.str u))) ∧
    operator_plus (operator_plus (.mk n1 (.str s)) (.mk n2 (.str t))) (.mk n3 (.str u)) =
      Value.of_string (s ++ t ++ u) ∧
    operator_plus (operator_plus (Value.of_string "x") (Value.of_int 1)) (Value.of_int 2) =
      Value.of_string "x12" ∧
    operator_plus (Value.of_string "x") (operator_plus (Value.of_int 1) (Value.of_int 2)) =
      Value.of_string "x3" ∧
    operator_plus (operator_plus (Value.of_string "x") (Value.of_int 1)) (Value.of_int 2) ≠
      operator_plus (Value.of_string "x") (operator_plus (Value.of_int 1) (Value.of_int 2)) := by
  have h12 : operator_plus (operator_plus (Value.of_string "x") (Value.of_int 1))
      (Value.of_int 2) = Value.of_string "x12" := by rfl
  have h3 : operator_plus (Value.of_string "x") (operator_plus (Value.of_int 1)
      (Value.of_int 2)) = Value.of_string "x3" := by rfl
  refine ⟨?_, rfl, h12, h3, ?_⟩
  · show Value.of_string (s ++ t ++ u) = Value.of_string (s ++ (t ++ u))
    rw [String.append_assoc]
  · rw [h12, h3]
    simp [Value.of_string]

end SimpleLisp
